import Mathlib

/-!
Shallow embedding of the 2048GameInKernel device-driver core
(src/console.c, src/int.c, src/int.h) and verification of its
specification claims.

Modelling conventions:
* C `int` values are `Int`; C `uint32_t` values are `Nat` reduced mod 2^32
  where overflow can occur.
* Bytes (characters, scancodes, colors stored in video memory) are kept as
  their unsigned representatives in `[0, 256)`; a store of a C `int` into a
  byte cell is modelled with `% 256`.
* Video memory is a total function from byte addresses (`Int`) to byte
  values; the memory-mapped console occupies addresses
  `[CONSOLE_MEM_BASE, CONSOLE_MEM_BASE + 2 * CONSOLE_SZ)`.
* All divisions and remainders taken in the C source act on non-negative
  operands, where C truncating division agrees with the Euclidean `/` and
  `%` of `Int`, which we use throughout.
* Hardware port output, `lidt`, `lprintf` and callback invocations are
  recorded as explicit events.
-/

/- ===================== Console driver (src/console.c) ===================== -/

/-- CONSOLE_WIDTH from p1kern.h (80 columns). -/
def CONSOLE_WIDTH : Int := 80

/-- CONSOLE_HEIGHT from p1kern.h (25 rows). -/
def CONSOLE_HEIGHT : Int := 25

/-- CONSOLE_SZ = 80*25 from console.c line 16. -/
def CONSOLE_SZ : Int := 2000

/-- CONSOLE_MEM_BASE from p1kern.h (0xB8000). -/
def CONSOLE_MEM_BASE : Int := 753664

/-- COLOR_BOUND = 0x100 from console.c line 18. -/
def COLOR_BOUND : Int := 256

/-- State of the console driver: the `cursor` struct (console.c line 28),
`cursor_hidden` (line 29, VISIBLE = 0 / HIDDEN = 1), `cursor_color`
(line 30), the memory-mapped character grid, and the two CRTC hardware
cursor registers written by `show_cursor` / `hide_cursor`. -/
structure ConsoleState where
  row : Int
  col : Int
  cursor_color : Int
  cursor_hidden : Int
  mem : Int → Int
  hwLsb : Int
  hwMsb : Int

/-- draw_char (console.c lines 292-302): validates row, col and color, then
writes the character byte and the attribute byte of cell (row, col). -/
def draw_char (st : ConsoleState) (row col ch color : Int) : ConsoleState :=
  if row < 0 ∨ CONSOLE_HEIGHT ≤ row ∨ col < 0 ∨ CONSOLE_WIDTH ≤ col ∨
      COLOR_BOUND ≤ color ∨ color < 0 then st
  else
    let pos := row * CONSOLE_WIDTH + col
    { st with mem := fun a =>
        if a = CONSOLE_MEM_BASE + pos * 2 then ch % 256
        else if a = CONSOLE_MEM_BASE + pos * 2 + 1 then color % 256
        else st.mem a }

/-- get_char (console.c lines 309-314): unchecked read of the character
byte of cell (row, col). -/
def get_char (st : ConsoleState) (row col : Int) : Int :=
  st.mem (CONSOLE_MEM_BASE + (row * CONSOLE_WIDTH + col) * 2)

/-- Attribute byte of cell (row, col); not a source function, only a
reader used to state properties about the color plane of the grid. -/
def attr_at (st : ConsoleState) (row col : Int) : Int :=
  st.mem (CONSOLE_MEM_BASE + (row * CONSOLE_WIDTH + col) * 2 + 1)

/-- set_cursor (console.c lines 183-195): validates both coordinates and
either updates the cursor and returns 0, or returns -1 leaving everything
unchanged. -/
def set_cursor (st : ConsoleState) (row col : Int) : ConsoleState × Int :=
  if row < 0 ∨ CONSOLE_HEIGHT ≤ row ∨ col < 0 ∨ CONSOLE_WIDTH ≤ col then
    (st, -1)
  else
    ({ st with row := row, col := col }, 0)

/-- get_cursor (console.c lines 205-210): reads the cursor struct. -/
def get_cursor (st : ConsoleState) : Int × Int :=
  (st.row, st.col)

/-- show_cursor (console.c lines 242-255): writes the linear cursor
position into the CRTC LSB/MSB registers.  The source computes
`pos & 0xff` and `(pos >> 8) & 0xff` on a non-negative `pos`, which is
`%`/`/` by 256. -/
def show_cursor (st : ConsoleState) : ConsoleState :=
  let pos := st.col + st.row * CONSOLE_WIDTH
  { st with hwLsb := pos % 256, hwMsb := pos / 256 % 256 }

/-- One byte-to-byte copy loop `while(start != end) *head++ = *start++;`
(console.c lines 41-42), unrolled on the iteration count. -/
def memCopy : Nat → (Int → Int) → Int → Int → (Int → Int)
  | 0, mem, _, _ => mem
  | n + 1, mem, dst, src =>
      memCopy n (fun a => if a = dst then mem src else mem a) (dst + 1) (src + 1)

/-- The blank-fill loop `while(start != end){ *start++ = ' '; *start++ = color; }`
(console.c lines 44-47), unrolled on the iteration count (two byte writes
per iteration). -/
def memFill : Nat → (Int → Int) → Int → Int → (Int → Int)
  | 0, mem, _, _ => mem
  | n + 1, mem, p, color =>
      memFill n
        (fun a => if a = p then 32 else if a = p + 1 then color % 256 else mem a)
        (p + 2) color

/-- console_scroll (console.c lines 36-49): copies the 3840 bytes starting
at row 1 down to the base address, then fills the last row's 160 bytes with
blank characters in the current color (80 iterations of two byte writes). -/
def console_scroll (st : ConsoleState) : ConsoleState :=
  let mem1 := memCopy 3840 st.mem CONSOLE_MEM_BASE (CONSOLE_MEM_BASE + 160)
  let mem2 := memFill 80 mem1 (CONSOLE_MEM_BASE + 3840) st.cursor_color
  { st with mem := mem2 }

/-- putbyte (console.c lines 66-108): the control-character switch, then the
unconditional `set_cursor(cursor.row, cursor.col)` call and, when the cursor
is not hidden, `show_cursor()`.  Character codes: `\n` = 10, `\r` = 13,
`\b` = 8. -/
def putbyte (st : ConsoleState) (ch : Int) : ConsoleState × Int :=
  let pos := st.row * CONSOLE_WIDTH + st.col
  let st1 :=
    if ch = 10 then
      let stA := { st with row := st.row + 1, col := 0 }
      if CONSOLE_HEIGHT ≤ stA.row then
        console_scroll { stA with row := CONSOLE_HEIGHT - 1 }
      else stA
    else if ch = 13 then
      { st with row := 0 }
    else if ch = 8 then
      let pos1 := pos - 1
      let pos2 := if pos1 < 0 then 0 else pos1
      let stA := { st with row := pos2 / CONSOLE_WIDTH,
                           col := pos2 % CONSOLE_WIDTH }
      draw_char stA stA.row stA.col 32 stA.cursor_color
    else
      let stA := draw_char st st.row st.col ch st.cursor_color
      let pos1 := pos + 1
      let stB := { stA with row := pos1 / CONSOLE_WIDTH,
                            col := pos1 % CONSOLE_WIDTH }
      if CONSOLE_HEIGHT ≤ stB.row then
        console_scroll { stB with row := CONSOLE_HEIGHT - 1 }
      else stB
  let st2 := (set_cursor st1 st1.row st1.col).1
  let st3 := if st2.cursor_hidden = 0 then show_cursor st2 else st2
  (st3, ch)

/-- The loop of putbytes (console.c lines 130-134), unrolled on the number
of iterations; `strMem` is the memory the string pointer `p` reads through,
`p` the current pointer value.  Alongside the final console state it
returns the list of addresses read through the string pointer. -/
def putbytesLoop : Nat → ConsoleState → (Int → Int) → Int → ConsoleState × List Int
  | 0, st, _, _ => (st, [])
  | n + 1, st, strMem, p =>
      let st1 := (putbyte st (strMem p)).1
      let r := putbytesLoop n st1 strMem (p + 1)
      (r.1, p :: r.2)

/-- putbytes (console.c lines 127-135): `for(i = 0; i < len; i++)
putbyte(*p++);` — no null check is performed on `s`; the loop body simply
runs `max len 0` times reading successive bytes from address `s` on.  A
null pointer is address 0. -/
def putbytes (st : ConsoleState) (strMem : Int → Int) (s : Int) (len : Int) :
    ConsoleState × List Int :=
  if len ≤ 0 then (st, []) else putbytesLoop len.toNat st strMem s

/- ================= Keyboard circular buffer (src/int.c) ================= -/

/-- MAX_BUF_SZ from int.c line 103. -/
def MAX_BUF_SZ : Int := 512

/-- State of the keyboard circular buffer: the globals `buf`, `buf_sz`,
`head`, `tail` of int.c lines 270-274. -/
structure KbdState where
  buf : Int → Int
  buf_sz : Int
  head : Int
  tail : Int

/-- writebuf (int.c lines 297-304): if the buffer is not full, store the
byte at `head`, advance `head` with wraparound, and increment `buf_sz`;
otherwise drop the byte. -/
def writebuf (st : KbdState) (ch : Int) : KbdState :=
  if st.buf_sz < MAX_BUF_SZ then
    let buf1 := fun i => if i = st.head then ch else st.buf i
    let head1 := st.head + 1
    let head2 := if head1 = MAX_BUF_SZ then 0 else head1
    { st with buf := buf1, head := head2, buf_sz := st.buf_sz + 1 }
  else st

/-- readbuf (int.c lines 315-324): `uint8_t ch = 0;` then, if the buffer is
non-empty, read the byte at `tail` (the `char` to `uint8_t` conversion is
reduction mod 256), advance `tail` with wraparound, and decrement `buf_sz`;
returns the byte together with the new state. -/
def readbuf (st : KbdState) : KbdState × Int :=
  if 0 < st.buf_sz then
    let ch := st.buf st.tail % 256
    let tail1 := st.tail + 1
    let tail2 := if tail1 = MAX_BUF_SZ then 0 else tail1
    ({ st with tail := tail2, buf_sz := st.buf_sz - 1 }, ch)
  else (st, 0)

/-- readchar (int.c lines 335-343), parametric in the keyhelp library
(which is outside this repository).  Modelled from the spec: the scancode
decode state is a state machine keyed by the byte stream; `psc` is
`process_scancode`, mapping a decode state and an input byte to the updated
decode state together with `some c` exactly when the accumulated sequence
is a complete make (press) event carrying data (KH_ISMAKE and KH_HASDATA),
in which case `c` is KH_GETCHAR of it.  readchar pops a byte with
`readbuf` (0 when the buffer is empty), unconditionally feeds it to
`process_scancode`, and returns the decoded character or -1. -/
def readchar {D : Type} (psc : D → Int → D × Option Int)
    (st : KbdState) (d : D) : KbdState × D × Int :=
  let r := readbuf st
  let a := psc d r.2
  (r.1, a.1, match a.2 with | some c => c | none => -1)

/-- A decode state that records the bytes fed to `process_scancode`, used
to observe which bytes reach the decoder. -/
def pscTrace : List Int → Int → List Int × Option Int :=
  fun l ch => (l ++ [ch], none)

/-- The abstract FIFO contents of the circular buffer: the `buf_sz` bytes
starting at `tail`, in pop order. -/
def toQueue (st : KbdState) : List Int :=
  (List.range st.buf_sz.toNat).map
    (fun i : Nat => st.buf ((st.tail + (i : Int)) % 512))

/-- Invariant of the circular buffer: count within `[0, 512]`, head and
tail within `[0, 512)`, head positioned `buf_sz` slots past tail modulo the
capacity, and every stored slot holding an unsigned byte value. -/
def KInv (st : KbdState) : Prop :=
  0 ≤ st.buf_sz ∧ st.buf_sz ≤ 512 ∧
  0 ≤ st.head ∧ st.head < 512 ∧
  0 ≤ st.tail ∧ st.tail < 512 ∧
  st.head = (st.tail + st.buf_sz) % 512 ∧
  (∀ a : Int, 0 ≤ a → a < 512 → 0 ≤ st.buf a ∧ st.buf a < 256)

/-- Pushing a whole list of bytes through `writebuf`, oldest first. -/
def pushList (st : KbdState) : List Int → KbdState
  | [] => st
  | b :: l => pushList (writebuf st b) l

/-- Popping `n` bytes with `readbuf`, collecting the returned values. -/
def popList : Nat → KbdState → List Int
  | 0, _ => []
  | n + 1, st => (readbuf st).2 :: popList n (readbuf st).1

/- ============== Interrupt dispatch and timer (src/int.c) ============== -/

/-- IRQ_TIMER = 0x20 from int.h line 17. -/
def IRQ_TIMER : Nat := 32

/-- IRQ_KBD = 0x21 from int.h line 19. -/
def IRQ_KBD : Nat := 33

/-- INT_32 = 0xE from int.h line 27. -/
def INT_32 : Int := 14

/-- SEGSEL_KERNEL_CS from x86/seg.h (0x10). -/
def SEGSEL_KERNEL_CS : Int := 16

/-- TIMER_RATE from x86/timer_defines.h (1193182 Hz PIT input clock). -/
def TIMER_RATE : Nat := 1193182

/-- TIMER_MODE_IO_PORT from x86/timer_defines.h (0x43). -/
def TIMER_MODE_IO_PORT : Int := 67

/-- TIMER_SQUARE_WAVE from x86/timer_defines.h (0x36). -/
def TIMER_SQUARE_WAVE : Int := 54

/-- TIMER_PERIOD_IO_PORT from x86/timer_defines.h (0x40). -/
def TIMER_PERIOD_IO_PORT : Int := 64

/-- INT_CTL_PORT from x86/interrupt_defines.h (0x20). -/
def INT_CTL_PORT : Int := 32

/-- INT_ACK_CURRENT from x86/interrupt_defines.h (0x20). -/
def INT_ACK_CURRENT : Int := 32

/-- One gate descriptor (int.c lines 53-63). -/
structure Gatedp where
  low_0_15 : Int
  selector : Int
  padding1 : Int
  typ : Int
  padding2 : Int
  dpl : Int
  present : Int
  high_16_31 : Int
deriving DecidableEq

/-- The all-zero gate descriptor; the idt array is initialised to zero
(int.c line 106: `struct Gatedp idt[IDT_ENTS] = { {0} };`). -/
def gateZero : Gatedp :=
  { low_0_15 := 0, selector := 0, padding1 := 0, typ := 0, padding2 := 0,
    dpl := 0, present := 0, high_16_31 := 0 }

/-- SETGATE (int.c lines 86-98): fills gate `num` as a present 32-bit
interrupt gate for `handler` (a non-negative link-time address, split as
`handler & 0xffff` and `handler >> 16`). -/
def SETGATE (gate : Nat → Gatedp) (num : Nat) (sel : Int) (handler : Int)
    (dpl : Int) : Nat → Gatedp :=
  fun i =>
    if i = num then
      { low_0_15 := handler % 65536, selector := sel, padding1 := 0,
        typ := INT_32, padding2 := 0, dpl := dpl, present := 1,
        high_16_31 := handler / 65536 }
    else gate i

/-- Observable hardware/logging events of int.c: `lidt`, a SETGATE store,
an `outb`, an `lprintf` diagnostic, and an invocation of the registered
timer callback with its argument. -/
inductive IntEv where
  | lidtEv : IntEv
  | setgateEv : Nat → IntEv
  | outbEv : Int → Int → IntEv
  | logEv : IntEv
  | callbackEv : Nat → IntEv
  | enableEv : IntEv
deriving DecidableEq

/-- Global state of int.c: the idt array, the timer tick counter (a
`uint32_t`, kept below 2^32), whether a timer callback is registered
(the function pointer `timer_callback`, nullable), and the keyboard
buffer. -/
structure SysState where
  idt : Nat → Gatedp
  timer_ticks : Nat
  timer_callback : Bool
  kbd : KbdState

/-- load_idt (int.c lines 145-147): loads the idt into the processor;
pure event, no state change. -/
def load_idt : List IntEv := [IntEv.lidtEv]

/-- int_init (int.c lines 156-159): programs the timer and keyboard gates;
`tAddr` and `kAddr` are the link-time addresses of `asm_timer_handler` and
`asm_kbd_handler`. -/
def int_init (st : SysState) (tAddr kAddr : Int) : SysState × List IntEv :=
  let idt1 := SETGATE st.idt IRQ_TIMER SEGSEL_KERNEL_CS tAddr 0
  let idt2 := SETGATE idt1 IRQ_KBD SEGSEL_KERNEL_CS kAddr 0
  ({ st with idt := idt2 }, [IntEv.setgateEv IRQ_TIMER, IntEv.setgateEv IRQ_KBD])

/-- timer_init (int.c lines 224-230): programs the PIT with
`period = TIMER_RATE / 100`, sending the mode byte and then the low and
high period bytes. -/
def timer_init : List IntEv :=
  let period := TIMER_RATE / 100
  [IntEv.outbEv TIMER_MODE_IO_PORT TIMER_SQUARE_WAVE,
   IntEv.outbEv TIMER_PERIOD_IO_PORT (period % 256 : Nat),
   IntEv.outbEv TIMER_PERIOD_IO_PORT ((period / 256) % 256 : Nat)]

/-- timer_install (int.c lines 256-259): runs timer_init and stores the
callback (`cb` records whether `tickback` is a non-null pointer). -/
def timer_install (st : SysState) (cb : Bool) : SysState × List IntEv :=
  ({ st with timer_callback := cb }, timer_init)

/-- handler_install (int.c lines 169-174): `load_idt(); int_init();
timer_install(tickback); return 0;` in that order, returning 0. -/
def handler_install (st : SysState) (tAddr kAddr : Int) (cb : Bool) :
    (SysState × List IntEv) × Int :=
  let r1 := int_init st tAddr kAddr
  let r2 := timer_install r1.1 cb
  ((r2.1, load_idt ++ r1.2 ++ r2.2), 0)

/-- timer_handler (int.c lines 241-246): increments the `uint32_t` tick
counter (wrapping at 2^32) and, if a callback is registered, invokes it
with the post-increment counter value. -/
def timer_handler (st : SysState) : SysState × List IntEv :=
  let t := (st.timer_ticks + 1) % 4294967296
  ({ st with timer_ticks := t },
   if st.timer_callback then [IntEv.callbackEv t] else [])

/-- kbd_handler (int.c lines 284-286): reads one scancode byte from the
keyboard port (`kbd_in`, the value `inb(KEYBOARD_PORT)` returns) and pushes
it into the circular buffer. -/
def kbd_handler (st : SysState) (kbd_in : Int) : SysState :=
  { st with kbd := writebuf st.kbd kbd_in }

/-- int_handler (int.c lines 186-204): dispatches on `regs->irq_no`; timer
and keyboard vectors run their handler and then acknowledge the interrupt
controller with one `outb(INT_CTL_PORT, INT_ACK_CURRENT)`; any other
vector only logs a diagnostic via `lprintf`. -/
def int_handler (st : SysState) (irq_no : Nat) (kbd_in : Int) :
    SysState × List IntEv :=
  if irq_no = IRQ_TIMER then
    let r := timer_handler st
    (r.1, r.2 ++ [IntEv.outbEv INT_CTL_PORT INT_ACK_CURRENT])
  else if irq_no = IRQ_KBD then
    (kbd_handler st kbd_in, [IntEv.outbEv INT_CTL_PORT INT_ACK_CURRENT])
  else
    (st, [IntEv.logEv])

/- ===================== Concrete states and spec predicates ===================== -/

/-- A concrete console state: cursor at (3, 5), light-gray color, cursor
visible, blank memory. -/
def cState0 : ConsoleState :=
  { row := 3, col := 5, cursor_color := 7, cursor_hidden := 0,
    mem := fun _ => 0, hwLsb := 0, hwMsb := 0 }

/-- A concrete console state with the cursor on the last row. -/
def cState6 : ConsoleState :=
  { row := 24, col := 7, cursor_color := 7, cursor_hidden := 0,
    mem := fun _ => 0, hwLsb := 0, hwMsb := 0 }

/-- The empty keyboard buffer (the initial values of int.c lines 270-274). -/
def kState0 : KbdState :=
  { buf := fun _ => 0, buf_sz := 0, head := 0, tail := 0 }

/-- A keyboard buffer holding the single byte 65. -/
def kState1 : KbdState :=
  { buf := fun i => if i = 0 then 65 else 0, buf_sz := 1, head := 1, tail := 0 }

/-- A concrete int.c state: zeroed idt, no ticks, no callback, empty
keyboard buffer. -/
def sys0 : SysState :=
  { idt := fun _ => gateZero, timer_ticks := 0, timer_callback := false,
    kbd := kState0 }

/-- The int.c state whose tick counter sits at the largest `uint32_t`
value, with a registered callback. -/
def sysMax : SysState :=
  { idt := fun _ => gateZero, timer_ticks := 4294967295,
    timer_callback := true, kbd := kState0 }

/-- The installation order claimed by the spec for `handler_install`:
first gate-programming events only, then the `lidt` load, then anything
(arming the timer), and finally an interrupt-enable event. -/
def claimedInstallOrder (tr : List IntEv) : Prop :=
  ∃ gates rest, (∀ e ∈ gates, ∃ n, e = IntEv.setgateEv n) ∧
    tr = gates ++ [IntEv.lidtEv] ++ rest ++ [IntEv.enableEv]

/- ============================== Theorems ============================== -/

/-- C1: the claim says `put_character('\r')` moves the cursor to column 0
of the current row.  The code (console.c line 80) instead executes
`cursor.row = 0;`, moving to row 0 of the current column: from cursor
(3, 5) a carriage return leaves the cursor at (0, 5), not (3, 0).  The
grid is indeed untouched. -/
theorem c1_creturn_resets_row_not_column :
    (putbyte cState0 13).1.row = 0 ∧ (putbyte cState0 13).1.col = 5 ∧
    ¬ ((putbyte cState0 13).1.row = 3 ∧ (putbyte cState0 13).1.col = 0) ∧
    (∀ a : Int, (putbyte cState0 13).1.mem a = cState0.mem a) := by
  refine ⟨rfl, rfl, ?_, fun a => rfl⟩
  intro h
  exact absurd h.1 (by decide)

/-- C2: the claim says `readchar` on an empty buffer pops nothing, feeds
nothing into the scancode decode state, and returns -1.  The code
(int.c lines 335-343) pops nothing and returns -1, but it unconditionally
feeds the sentinel value 0 of `readbuf` into `process_scancode`: with the
recording decoder the decode state goes from `[]` to `[0]`. -/
theorem c2_readchar_feeds_zero_on_empty :
    (readchar pscTrace kState0 []).1 = kState0 ∧
    (readchar pscTrace kState0 []).2.1 = [0] ∧
    (readchar pscTrace kState0 []).2.2 = -1 :=
  ⟨rfl, rfl, rfl⟩

/-- C3: the claim says `putbytes(s, len)` with a null `s` is a complete
no-op that reads no memory through `s`.  The code (console.c lines
127-135) never checks `s`: with `s` null (address 0) and `len = 1` it
reads the byte at address 0 and prints it, advancing the cursor from
(3, 5) to (3, 6) and writing cell (3, 5).  (With `len ≤ 0` the loop body
never runs, so only the null-pointer half of the claim fails.) -/
theorem c3_putbytes_null_not_noop :
    (putbytes cState0 (fun _ => 65) 0 1).2 = [0] ∧
    (putbytes cState0 (fun _ => 65) 0 1).1.col = 6 ∧
    get_char (putbytes cState0 (fun _ => 65) 0 1).1 3 5 = 65 ∧
    (putbytes cState0 (fun _ => 0) 0 (-4)).1 = cState0 ∧
    (putbytes cState0 (fun _ => 0) 0 (-4)).2 = [] := by
  refine ⟨by decide, by decide, by decide, ?_, ?_⟩ <;> rfl

/-- C7: `set_cursor` on in-bounds coordinates succeeds (returns 0) and an
immediately following `get_cursor` reads back exactly those coordinates;
on out-of-bounds coordinates it returns the negative error -1 and
`get_cursor` reads the unchanged prior position (console.c lines 183-195
and 205-210). -/
theorem c7_set_get_cursor (st : ConsoleState) (row col : Int) :
    ((0 ≤ row ∧ row < CONSOLE_HEIGHT ∧ 0 ≤ col ∧ col < CONSOLE_WIDTH) →
      (set_cursor st row col).2 = 0 ∧
      get_cursor (set_cursor st row col).1 = (row, col)) ∧
    (¬ (0 ≤ row ∧ row < CONSOLE_HEIGHT ∧ 0 ≤ col ∧ col < CONSOLE_WIDTH) →
      (set_cursor st row col).2 = -1 ∧
      get_cursor (set_cursor st row col).1 = get_cursor st) := by
  unfold set_cursor get_cursor CONSOLE_HEIGHT CONSOLE_WIDTH
  constructor
  · intro h
    rw [if_neg (by omega)]
    exact ⟨rfl, rfl⟩
  · intro h
    rw [if_pos (by omega)]
    exact ⟨rfl, rfl⟩

/-- Witness for C7 at the in-bounds input (4, 7) and the out-of-bounds
input (25, 7). -/
theorem c7_set_get_cursor_w :
    ((set_cursor cState0 4 7).2 = 0 ∧
      get_cursor (set_cursor cState0 4 7).1 = (4, 7)) ∧
    ((set_cursor cState0 25 7).2 = -1 ∧
      get_cursor (set_cursor cState0 25 7).1 = get_cursor cState0) :=
  ⟨(c7_set_get_cursor cState0 4 7).1 (by decide),
   (c7_set_get_cursor cState0 25 7).2 (by decide)⟩

/-- C8 counterexample: `timer_ticks` is a `uint32_t`, so at the concrete
pre-state `sysMax` (counter = 2^32 - 1) one more timer interrupt wraps the
counter to 0 — it is not monotonically increasing, and the callback is
invoked with the wrapped value 0. -/
theorem c8_wrap_counterexample :
    (timer_handler sysMax).1.timer_ticks = 0 ∧
    ¬ sysMax.timer_ticks < (timer_handler sysMax).1.timer_ticks ∧
    (timer_handler sysMax).2 = [IntEv.callbackEv 0] := by
  refine ⟨by decide, by decide, rfl⟩

/-- C8 (amended): on each timer interrupt the tick counter is incremented
exactly once modulo 2^32 — strictly increasing as long as no wraparound
occurs — and if a callback is registered it is invoked synchronously with
the post-increment counter value (int.c lines 241-246). -/
theorem c8_tick_increment (st : SysState) :
    (timer_handler st).1.timer_ticks = (st.timer_ticks + 1) % 4294967296 ∧
    (st.timer_callback = true →
      (timer_handler st).2 = [IntEv.callbackEv ((timer_handler st).1.timer_ticks)]) ∧
    (st.timer_callback = false → (timer_handler st).2 = []) ∧
    (st.timer_ticks + 1 < 4294967296 →
      (timer_handler st).1.timer_ticks = st.timer_ticks + 1) := by
  refine ⟨rfl, ?_, ?_, ?_⟩
  · intro h; simp [timer_handler, h]
  · intro h; simp [timer_handler, h]
  · intro h
    show (st.timer_ticks + 1) % 4294967296 = st.timer_ticks + 1
    exact Nat.mod_eq_of_lt h

/-- Witness for C8 (amended) at `sysMax` (callback registered, counter at
2^32 - 1) and at `sys0` (no callback, counter 0, no wraparound). -/
theorem c8_tick_increment_w :
    (timer_handler sysMax).2 =
      [IntEv.callbackEv ((timer_handler sysMax).1.timer_ticks)] ∧
    (timer_handler sys0).2 = [] ∧
    (timer_handler sys0).1.timer_ticks = sys0.timer_ticks + 1 :=
  ⟨(c8_tick_increment sysMax).2.1 rfl,
   (c8_tick_increment sys0).2.2.1 rfl,
   (c8_tick_increment sys0).2.2.2 (by decide)⟩

/-- C9: for any vector other than the timer (0x20) and keyboard (0x21)
vectors, `int_handler` produces exactly one diagnostic log event, no
controller acknowledgment, and returns the state — tick counter and
keyboard buffer included — unchanged; for the timer and keyboard vectors
the event list contains exactly one `outb(INT_CTL_PORT, INT_ACK_CURRENT)`
acknowledgment (int.c lines 186-204). -/
theorem c9_unknown_vector_dispatch (st : SysState) (irq : Nat) (b : Int) :
    (irq ≠ IRQ_TIMER → irq ≠ IRQ_KBD →
      int_handler st irq b = (st, [IntEv.logEv])) ∧
    (irq = IRQ_TIMER ∨ irq = IRQ_KBD →
      ((int_handler st irq b).2.count
        (IntEv.outbEv INT_CTL_PORT INT_ACK_CURRENT)) = 1) := by
  constructor
  · intro h1 h2
    simp [int_handler, h1, h2]
  · rintro (h | h) <;> subst h
    · rcases hcb : st.timer_callback with hf | ht <;>
        simp [int_handler, timer_handler, hcb, IRQ_TIMER, IRQ_KBD,
          List.count_cons, List.count_nil, List.count_append]
    · simp [int_handler, kbd_handler, IRQ_TIMER, IRQ_KBD,
        List.count_cons, List.count_nil]

/-- Witness for C9 at the unknown vector 5 and at the timer and keyboard
vectors. -/
theorem c9_unknown_vector_dispatch_w :
    int_handler sys0 5 0 = (sys0, [IntEv.logEv]) ∧
    ((int_handler sys0 IRQ_TIMER 0).2.count
      (IntEv.outbEv INT_CTL_PORT INT_ACK_CURRENT)) = 1 ∧
    ((int_handler sys0 IRQ_KBD 0).2.count
      (IntEv.outbEv INT_CTL_PORT INT_ACK_CURRENT)) = 1 :=
  ⟨(c9_unknown_vector_dispatch sys0 5 0).1 (by decide) (by decide),
   (c9_unknown_vector_dispatch sys0 IRQ_TIMER 0).2 (Or.inl rfl),
   (c9_unknown_vector_dispatch sys0 IRQ_KBD 0).2 (Or.inr rfl)⟩

/-- C4 counterexample: the trace of `handler_install` (int.c lines
169-174) does not follow the claimed order — it loads the gate table into
the processor *before* programming the gates, and it never enables
interrupt delivery (the caller, game.c, runs `enable_interrupts()` itself
after `handler_install` returns). -/
theorem c4_install_order_counterexample :
    ¬ claimedInstallOrder ((handler_install sys0 4096 8192 true).1.2) := by
  rintro ⟨gates, rest, -, heq⟩
  have hm : IntEv.enableEv ∈ (handler_install sys0 4096 8192 true).1.2 := by
    rw [heq]; simp
  have hne : ¬ IntEv.enableEv ∈ (handler_install sys0 4096 8192 true).1.2 := by
    decide
  exact hne hm

/-- C4 (amended): `handler_install` first loads the gate table into the
processor's interrupt base register, *then* programs the table — after
which exactly the timer and keyboard gates are marked present (given a
zeroed initial table) — then arms the timer hardware (mode byte, then the
two period bytes of 1193182/100 = 11931), registers the callback, and
returns 0; it does not itself enable interrupt delivery. -/
theorem c4_handler_install (st : SysState) (tA kA : Int) (cb : Bool)
    (hidt : ∀ v, (st.idt v).present = 0) :
    (handler_install st tA kA cb).1.2 =
      [IntEv.lidtEv, IntEv.setgateEv IRQ_TIMER, IntEv.setgateEv IRQ_KBD,
       IntEv.outbEv TIMER_MODE_IO_PORT TIMER_SQUARE_WAVE,
       IntEv.outbEv TIMER_PERIOD_IO_PORT 155,
       IntEv.outbEv TIMER_PERIOD_IO_PORT 46] ∧
    (handler_install st tA kA cb).2 = 0 ∧
    (∀ v, ((handler_install st tA kA cb).1.1.idt v).present = 1 ↔
      (v = IRQ_TIMER ∨ v = IRQ_KBD)) ∧
    (handler_install st tA kA cb).1.1.timer_callback = cb ∧
    ¬ IntEv.enableEv ∈ (handler_install st tA kA cb).1.2 := by
  refine ⟨?_, rfl, ?_, rfl, ?_⟩
  · norm_num [handler_install, load_idt, int_init, timer_install, timer_init,
      TIMER_RATE]
  · intro v
    show ((SETGATE (SETGATE st.idt IRQ_TIMER SEGSEL_KERNEL_CS tA 0)
        IRQ_KBD SEGSEL_KERNEL_CS kA 0) v).present = 1 ↔ _
    unfold SETGATE IRQ_TIMER IRQ_KBD
    split_ifs with h1 h2
    · simp [h1]
    · simp [h2]
    · rw [hidt v]
      constructor
      · intro h0; exact absurd h0 (by decide)
      · rintro (hv | hv) <;> [exact absurd hv h2; exact absurd hv h1]
  · simp [handler_install, load_idt, int_init, timer_install, timer_init]

/-- Witness for C4 (amended) at the zeroed table of `sys0`. -/
theorem c4_handler_install_w :
    (handler_install sys0 4096 8192 true).1.2 =
      [IntEv.lidtEv, IntEv.setgateEv IRQ_TIMER, IntEv.setgateEv IRQ_KBD,
       IntEv.outbEv TIMER_MODE_IO_PORT TIMER_SQUARE_WAVE,
       IntEv.outbEv TIMER_PERIOD_IO_PORT 155,
       IntEv.outbEv TIMER_PERIOD_IO_PORT 46] ∧
    (((handler_install sys0 4096 8192 true).1.1.idt IRQ_TIMER).present = 1 ∧
     ((handler_install sys0 4096 8192 true).1.1.idt 7).present ≠ 1) := by
  have h := c4_handler_install sys0 4096 8192 true (fun v => rfl)
  refine ⟨h.1, ((h.2.2.1 IRQ_TIMER).2 (Or.inl rfl)), ?_⟩
  intro hp
  rcases (h.2.2.1 7).1 hp with h7 | h7 <;> revert h7 <;> decide

/-- The net effect of the scroll copy loop: with the source running 160
bytes ahead of the destination, the forward byte copy always reads a not
yet overwritten byte, so byte `a` of the copied region ends up holding the
original byte at `a + 160`. -/
theorem memCopy_spec (n : Nat) (mem : Int → Int) (dst : Int) (a : Int) :
    memCopy n mem dst (dst + 160) a =
      if dst ≤ a ∧ a < dst + n then mem (a + 160) else mem a := by
  induction n generalizing mem dst with
  | zero =>
    rw [if_neg (by push_cast; omega)]
    rfl
  | succ n ih =>
    show memCopy n (fun x => if x = dst then mem (dst + 160) else mem x)
        (dst + 1) (dst + 160 + 1) a = _
    have harg : dst + 160 + 1 = (dst + 1) + 160 := by ring
    rw [harg, ih]
    by_cases h1 : dst + 1 ≤ a ∧ a < dst + 1 + (n : Int)
    · rw [if_pos h1]
      have e1 : ¬ (a + 160 = dst) := by omega
      rw [if_neg e1, if_pos (by push_cast; omega)]
    · rw [if_neg h1]
      by_cases h2 : a = dst
      · subst h2
        rw [if_pos rfl, if_pos (by push_cast; omega)]
      · rw [if_neg h2, if_neg (by push_cast at h1 ⊢; omega)]

/-- The net effect of the blank-fill loop: byte `a` of the filled region
becomes a space character at even offsets and the (truncated) fill color at
odd offsets. -/
theorem memFill_spec (n : Nat) (mem : Int → Int) (p c : Int) (a : Int) :
    memFill n mem p c a =
      if p ≤ a ∧ a < p + 2 * n then
        (if (a - p) % 2 = 0 then 32 else c % 256)
      else mem a := by
  induction n generalizing mem p with
  | zero =>
    rw [if_neg (by push_cast; omega)]
    rfl
  | succ n ih =>
    show memFill n
        (fun x => if x = p then 32 else if x = p + 1 then c % 256 else mem x)
        (p + 2) c a = _
    rw [ih]
    by_cases h1 : p + 2 ≤ a ∧ a < p + 2 + 2 * (n : Int)
    · rw [if_pos h1, if_pos (show p ≤ a ∧ a < p + 2 * ((n : Nat) + 1 : Nat) by push_cast; omega)]
      have hpar : (a - (p + 2)) % 2 = (a - p) % 2 := by omega
      rw [hpar]
    · rw [if_neg h1]
      by_cases h2 : a = p
      · rw [if_pos h2, if_pos (by push_cast; omega),
          if_pos (show (a - p) % 2 = 0 by omega)]
      · rw [if_neg h2]
        by_cases h3 : a = p + 1
        · rw [if_pos h3, if_pos (by push_cast; omega),
            if_neg (show ¬ (a - p) % 2 = 0 by omega)]
        · rw [if_neg h3, if_neg (by push_cast at h1 ⊢; omega)]

/-- Byte-level effect of `console_scroll`: the last row's 160 bytes become
alternating blanks and the current color, every earlier console byte takes
the value of the byte one row (160 bytes) after it, and memory outside the
console is untouched. -/
theorem console_scroll_mem (st : ConsoleState) (a : Int) :
    (console_scroll st).mem a =
      if 753664 + 3840 ≤ a ∧ a < 753664 + 4000 then
        (if (a - 753664) % 2 = 0 then 32
         else st.cursor_color % 256)
      else if 753664 ≤ a ∧ a < 753664 + 3840 then st.mem (a + 160)
      else st.mem a := by
  show memFill 80 (memCopy 3840 st.mem CONSOLE_MEM_BASE (CONSOLE_MEM_BASE + 160))
      (CONSOLE_MEM_BASE + 3840) st.cursor_color a = _
  rw [memFill_spec, memCopy_spec]
  unfold CONSOLE_MEM_BASE
  by_cases h1 : (753664 : Int) + 3840 ≤ a ∧ a < 753664 + 4000
  · rw [if_pos (by push_cast; omega), if_pos h1]
    have hpar : (a - (753664 + 3840)) % 2 = (a - 753664) % 2 := by
      omega
    rw [hpar]
  · rw [if_neg (by push_cast at h1 ⊢; omega), if_neg h1]
    by_cases h2 : (753664 : Int) ≤ a ∧ a < 753664 + 3840
    · rw [if_pos (by push_cast; omega), if_pos h2]
    · rw [if_neg (by push_cast at h2 ⊢; omega), if_neg h2]

/-- `console_scroll` changes only the `mem` field. -/
theorem console_scroll_fields (st : ConsoleState) :
    (console_scroll st).row = st.row ∧ (console_scroll st).col = st.col ∧
    (console_scroll st).cursor_color = st.cursor_color ∧
    (console_scroll st).cursor_hidden = st.cursor_hidden :=
  ⟨rfl, rfl, rfl, rfl⟩

/-- Structure of `putbyte` on a newline with the cursor on the last row:
the cursor moves to column 0 of the (unchanged) last row and the grid
bytes are exactly those produced by one `console_scroll`. -/
theorem putbyte_nl_struct (st : ConsoleState)
    (hrow : st.row = CONSOLE_HEIGHT - 1) :
    (putbyte st 10).1.row = CONSOLE_HEIGHT - 1 ∧ (putbyte st 10).1.col = 0 ∧
    ∀ a : Int, (putbyte st 10).1.mem a = (console_scroll st).mem a := by
  obtain ⟨r, c, colo, hid, m, lsb, msb⟩ := st
  have h24 : r = 24 := by simpa [CONSOLE_HEIGHT] using hrow
  subst h24
  by_cases hh : hid = 0 <;>
    simp [putbyte, set_cursor, show_cursor, console_scroll,
      CONSOLE_HEIGHT, CONSOLE_WIDTH, hh]

/-- C6: printing `\n` with the cursor on the last row scrolls exactly
once — each cell of row `r` (1 ≤ r < 25) moves to row `r - 1`, the prior
contents of row 0 are discarded, the new last row is entirely blank in the
current color — and the cursor ends at column 0 of the last row
(console.c lines 70-78 and 36-49). -/
theorem c6_newline_scroll (st : ConsoleState)
    (hrow : st.row = CONSOLE_HEIGHT - 1)
    (hcolor : 0 ≤ st.cursor_color ∧ st.cursor_color < 256) :
    ((putbyte st 10).1.row = CONSOLE_HEIGHT - 1 ∧ (putbyte st 10).1.col = 0) ∧
    (∀ r c : Int, 1 ≤ r → r < CONSOLE_HEIGHT → 0 ≤ c → c < CONSOLE_WIDTH →
        get_char (putbyte st 10).1 (r - 1) c = get_char st r c ∧
        attr_at (putbyte st 10).1 (r - 1) c = attr_at st r c) ∧
    (∀ c : Int, 0 ≤ c → c < CONSOLE_WIDTH →
        get_char (putbyte st 10).1 (CONSOLE_HEIGHT - 1) c = 32 ∧
        attr_at (putbyte st 10).1 (CONSOLE_HEIGHT - 1) c = st.cursor_color) := by
  obtain ⟨hR, hC, hM⟩ := putbyte_nl_struct st hrow
  refine ⟨⟨hR, hC⟩, ?_, ?_⟩
  · intro r c h1 h2 h3 h4
    unfold CONSOLE_HEIGHT at h2
    unfold CONSOLE_WIDTH at h4
    unfold get_char attr_at CONSOLE_MEM_BASE CONSOLE_WIDTH
    constructor
    · rw [hM, console_scroll_mem, if_neg (by omega), if_pos (by omega)]
      congr 1
      ring
    · rw [hM, console_scroll_mem, if_neg (by omega), if_pos (by omega)]
      congr 1
      ring
  · intro c h3 h4
    unfold CONSOLE_WIDTH at h4
    unfold get_char attr_at CONSOLE_MEM_BASE CONSOLE_WIDTH CONSOLE_HEIGHT
    constructor
    · rw [hM, console_scroll_mem, if_pos (by omega), if_pos (by omega)]
    · rw [hM, console_scroll_mem, if_pos (by omega), if_neg (by omega)]
      omega

/-- Witness for C6 at the concrete state `cState6` (cursor (24, 7)),
checking the shifted cell (3, 5) → (2, 5), the blanked last row at column
5, and the final cursor position. -/
theorem c6_newline_scroll_w :
    ((putbyte cState6 10).1.row = CONSOLE_HEIGHT - 1 ∧
      (putbyte cState6 10).1.col = 0) ∧
    get_char (putbyte cState6 10).1 2 5 = get_char cState6 3 5 ∧
    get_char (putbyte cState6 10).1 (CONSOLE_HEIGHT - 1) 5 = 32 ∧
    attr_at (putbyte cState6 10).1 (CONSOLE_HEIGHT - 1) 5 = cState6.cursor_color := by
  have h := c6_newline_scroll cState6 (by decide) (by decide)
  exact ⟨h.1,
    (h.2.1 3 5 (by decide) (by decide) (by decide) (by decide)).1,
    (h.2.2 5 (by decide) (by decide)).1,
    (h.2.2 5 (by decide) (by decide)).2⟩


/-- C10: printing `\b` moves the cursor one cell back in row-major order —
clamped at cell (0, 0) — blanks the cell at the new cursor position in the
current color, and changes no other grid byte (console.c lines 82-89 and
293-302). -/
theorem c10_backspace (st : ConsoleState)
    (hr : 0 ≤ st.row ∧ st.row < CONSOLE_HEIGHT)
    (hc : 0 ≤ st.col ∧ st.col < CONSOLE_WIDTH)
    (hcolor : 0 ≤ st.cursor_color ∧ st.cursor_color < 256) :
    (putbyte st 8).1.row =
      max (st.row * CONSOLE_WIDTH + st.col - 1) 0 / CONSOLE_WIDTH ∧
    (putbyte st 8).1.col =
      max (st.row * CONSOLE_WIDTH + st.col - 1) 0 % CONSOLE_WIDTH ∧
    get_char (putbyte st 8).1 (putbyte st 8).1.row (putbyte st 8).1.col = 32 ∧
    attr_at (putbyte st 8).1 (putbyte st 8).1.row (putbyte st 8).1.col =
      st.cursor_color ∧
    (∀ a : Int,
        a ≠ CONSOLE_MEM_BASE + max (st.row * CONSOLE_WIDTH + st.col - 1) 0 * 2 →
        a ≠ CONSOLE_MEM_BASE + max (st.row * CONSOLE_WIDTH + st.col - 1) 0 * 2 + 1 →
        (putbyte st 8).1.mem a = st.mem a) := by
  obtain ⟨r, c, colo, hid, m, lsb, msb⟩ := st
  simp only [CONSOLE_HEIGHT, CONSOLE_WIDTH, CONSOLE_MEM_BASE] at hr hc hcolor ⊢
  have hm : (if r * 80 + c - 1 < 0 then 0 else r * 80 + c - 1) =
      max (r * 80 + c - 1) 0 := by
    split_ifs <;> omega
  have hsum : max (r * 80 + c - 1) 0 / 80 * 80 + max (r * 80 + c - 1) 0 % 80 =
      max (r * 80 + c - 1) 0 := by
    omega
  have hguard : ¬ (max (r * 80 + c - 1) 0 / 80 < 0 ∨
      25 ≤ max (r * 80 + c - 1) 0 / 80 ∨
      max (r * 80 + c - 1) 0 % 80 < 0 ∨
      80 ≤ max (r * 80 + c - 1) 0 % 80 ∨ 256 ≤ colo ∨ colo < 0) := by
    omega
  have hguard2 : ¬ (max (r * 80 + c - 1) 0 / 80 < 0 ∨
      25 ≤ max (r * 80 + c - 1) 0 / 80 ∨
      max (r * 80 + c - 1) 0 % 80 < 0 ∨
      80 ≤ max (r * 80 + c - 1) 0 % 80) := by
    omega
  simp only [putbyte, CONSOLE_WIDTH, CONSOLE_HEIGHT, CONSOLE_MEM_BASE]
  rw [if_neg (show ¬ (8 : Int) = 10 by decide)]
  rw [if_neg (show ¬ (8 : Int) = 13 by decide)]
  rw [if_pos trivial]
  rw [hm]
  simp only [draw_char, CONSOLE_WIDTH, CONSOLE_HEIGHT, CONSOLE_MEM_BASE,
    COLOR_BOUND]
  rw [if_neg hguard]
  simp only [set_cursor, CONSOLE_WIDTH, CONSOLE_HEIGHT]
  rw [if_neg hguard2]
  rw [hsum]
  by_cases hh : hid = 0
  · subst hh
    rw [if_pos rfl]
    simp only [show_cursor, get_char, attr_at, CONSOLE_WIDTH, CONSOLE_MEM_BASE]
    rw [hsum]
    refine ⟨trivial, trivial, ?_, ?_, ?_⟩
    · rw [if_pos rfl]
      decide
    · rw [if_neg (by omega), if_pos rfl]
      omega
    · intro a ha1 ha2
      rw [if_neg ha1, if_neg ha2]
  · rw [if_neg hh]
    simp only [get_char, attr_at, CONSOLE_WIDTH, CONSOLE_MEM_BASE]
    rw [hsum]
    refine ⟨trivial, trivial, ?_, ?_, ?_⟩
    · rw [if_pos rfl]
      decide
    · rw [if_neg (by omega), if_pos rfl]
      omega
    · intro a ha1 ha2
      rw [if_neg ha1, if_neg ha2]

/-- Witness for C10 at the concrete state `cState0` (cursor (3, 5)): the
cursor moves back to (3, 4) and that cell is blanked in the current
color. -/
theorem c10_backspace_w :
    (putbyte cState0 8).1.row = 3 ∧ (putbyte cState0 8).1.col = 4 ∧
    get_char (putbyte cState0 8).1 (putbyte cState0 8).1.row
      (putbyte cState0 8).1.col = 32 ∧
    attr_at (putbyte cState0 8).1 (putbyte cState0 8).1.row
      (putbyte cState0 8).1.col = cState0.cursor_color := by
  have h := c10_backspace cState0 (by decide) (by decide) (by decide)
  refine ⟨?_, ?_, h.2.2.1, h.2.2.2.1⟩
  · rw [h.1]; decide
  · rw [h.2.1]; decide

/-- `writebuf` on a non-full buffer: store at `head`, advance `head` with
wraparound, increment the count. -/
theorem writebuf_sz_lt (st : KbdState) (ch : Int) (h : st.buf_sz < 512) :
    writebuf st ch = { st with
      buf := fun i => if i = st.head then ch else st.buf i,
      head := if st.head + 1 = 512 then 0 else st.head + 1,
      buf_sz := st.buf_sz + 1 } := by
  unfold writebuf MAX_BUF_SZ
  rw [if_pos h]

/-- `writebuf` on a full buffer drops the byte and is the identity. -/
theorem writebuf_full (st : KbdState) (ch : Int) (h : ¬ st.buf_sz < 512) :
    writebuf st ch = st := by
  unfold writebuf MAX_BUF_SZ
  rw [if_neg h]

/-- `readbuf` on a non-empty buffer: read at `tail`, advance `tail` with
wraparound, decrement the count. -/
theorem readbuf_pos (st : KbdState) (h : 0 < st.buf_sz) :
    readbuf st = ({ st with
      tail := if st.tail + 1 = 512 then 0 else st.tail + 1,
      buf_sz := st.buf_sz - 1 }, st.buf st.tail % 256) := by
  unfold readbuf MAX_BUF_SZ
  rw [if_pos h]

/-- `readbuf` on an empty buffer returns 0 and changes nothing. -/
theorem readbuf_empty (st : KbdState) (h : ¬ 0 < st.buf_sz) :
    readbuf st = (st, 0) := by
  unfold readbuf MAX_BUF_SZ
  rw [if_neg h]

/-- `writebuf` preserves the circular-buffer invariant. -/
theorem writebuf_inv (st : KbdState) (ch : Int) (hinv : KInv st)
    (hch : 0 ≤ ch ∧ ch < 256) : KInv (writebuf st ch) := by
  obtain ⟨h1, h2, h3, h4, h5, h6, h7, h8⟩ := hinv
  by_cases hlt : st.buf_sz < 512
  · rw [writebuf_sz_lt st ch hlt]
    unfold KInv
    dsimp only
    refine ⟨by omega, by omega, ?_, ?_, h5, h6, ?_, ?_⟩
    · split_ifs <;> omega
    · split_ifs <;> omega
    · split_ifs <;> omega
    · intro a ha hb
      by_cases he : a = st.head
      · refine ⟨?_, ?_⟩ <;> rw [if_pos he] <;> omega
      · have := h8 a ha hb
        refine ⟨?_, ?_⟩ <;> rw [if_neg he] <;> omega
  · rw [writebuf_full st ch hlt]
    exact ⟨h1, h2, h3, h4, h5, h6, h7, h8⟩

/-- `readbuf` preserves the circular-buffer invariant. -/
theorem readbuf_inv (st : KbdState) (hinv : KInv st) : KInv (readbuf st).1 := by
  obtain ⟨h1, h2, h3, h4, h5, h6, h7, h8⟩ := hinv
  by_cases hpos : 0 < st.buf_sz
  · rw [readbuf_pos st hpos]
    unfold KInv
    dsimp only
    refine ⟨by omega, by omega, h3, h4, ?_, ?_, ?_, h8⟩
    · split_ifs <;> omega
    · split_ifs <;> omega
    · split_ifs <;> omega
  · rw [readbuf_empty st hpos]
    exact ⟨h1, h2, h3, h4, h5, h6, h7, h8⟩

/-- Pushing onto a non-full buffer appends the byte at the end of the
abstract FIFO contents. -/
theorem toQueue_writebuf (st : KbdState) (ch : Int) (hinv : KInv st)
    (hlt : st.buf_sz < 512) :
    toQueue (writebuf st ch) = toQueue st ++ [ch] := by
  obtain ⟨h1, h2, h3, h4, h5, h6, h7, h8⟩ := hinv
  rw [writebuf_sz_lt st ch hlt]
  unfold toQueue
  dsimp only
  have hn : (st.buf_sz + 1).toNat = st.buf_sz.toNat + 1 := by omega
  simp only [hn]
  rw [List.range_succ, List.map_append]
  congr 1
  · apply List.map_congr_left
    intro i hi
    rw [List.mem_range] at hi
    have hne : (st.tail + (i : Int)) % 512 ≠ st.head := by omega
    rw [if_neg hne]
  · simp only [List.map_cons, List.map_nil]
    have he : (st.tail + ((st.buf_sz.toNat : Nat) : Int)) % 512 = st.head := by
      omega
    rw [he, if_pos rfl]

/-- Popping from a non-empty buffer removes and returns the front of the
abstract FIFO contents. -/
theorem toQueue_readbuf (st : KbdState) (hinv : KInv st)
    (hpos : 0 < st.buf_sz) :
    toQueue st = (readbuf st).2 :: toQueue (readbuf st).1 := by
  obtain ⟨h1, h2, h3, h4, h5, h6, h7, h8⟩ := hinv
  rw [readbuf_pos st hpos]
  unfold toQueue
  dsimp only
  have hn : st.buf_sz.toNat = (st.buf_sz - 1).toNat + 1 := by omega
  rw [hn, List.range_succ_eq_map, List.map_cons, List.map_map]
  congr 1
  · have h0 : (st.tail + ((0 : Nat) : Int)) % 512 = st.tail := by omega
    rw [h0]
    have := h8 st.tail h5 h6
    omega
  · apply List.map_congr_left
    intro i hi
    rw [List.mem_range] at hi
    simp only [Function.comp]
    congr 1
    split_ifs <;> omega

/-- Pushing a whole byte sequence: the abstract FIFO contents gain exactly
the accepted prefix of the sequence (the bytes that fit in the remaining
free space); the rest is dropped and the invariant is preserved. -/
theorem pushList_spec (l : List Int) : ∀ st : KbdState, KInv st →
    (∀ b ∈ l, 0 ≤ b ∧ b < 256) →
    KInv (pushList st l) ∧
    toQueue (pushList st l) = toQueue st ++ l.take (512 - st.buf_sz.toNat) := by
  induction l with
  | nil =>
    intro st hinv hb
    refine ⟨hinv, ?_⟩
    simp [pushList]
  | cons b l ih =>
    intro st hinv hb
    have hbb : 0 ≤ b ∧ b < 256 := hb b (List.mem_cons_self b l)
    have hbl : ∀ x ∈ l, 0 ≤ x ∧ x < 256 := fun x hx => hb x (List.mem_cons_of_mem b hx)
    show KInv (pushList (writebuf st b) l) ∧
      toQueue (pushList (writebuf st b) l) = _
    by_cases hlt : st.buf_sz < 512
    · have hw := writebuf_inv st b hinv hbb
      obtain ⟨ih1, ih2⟩ := ih (writebuf st b) hw hbl
      refine ⟨ih1, ?_⟩
      rw [ih2, toQueue_writebuf st b hinv hlt]
      have hsz : (writebuf st b).buf_sz = st.buf_sz + 1 := by
        rw [writebuf_sz_lt st b hlt]
      have htk : 512 - (writebuf st b).buf_sz.toNat
          = (512 - st.buf_sz.toNat) - 1 := by
        rw [hsz]
        obtain ⟨hz, _⟩ := hinv
        omega
      have htk2 : 512 - st.buf_sz.toNat = ((512 - st.buf_sz.toNat) - 1) + 1 := by
        obtain ⟨hz, _⟩ := hinv
        omega
      rw [htk, htk2, List.take_succ_cons, List.append_assoc, List.singleton_append]
      have harith : 512 - st.buf_sz.toNat - 1 + 1 - 1 = 512 - st.buf_sz.toNat - 1 := by
        omega
      rw [harith]
    · have h512 : st.buf_sz = 512 := by
        obtain ⟨_, h2, _⟩ := hinv
        omega
      rw [writebuf_full st b hlt]
      obtain ⟨ih1, ih2⟩ := ih st hinv hbl
      refine ⟨ih1, ?_⟩
      rw [ih2]
      have hz : 512 - st.buf_sz.toNat = 0 := by omega
      rw [hz]
      simp

/-- Popping `count` bytes returns exactly the abstract FIFO contents, in
order. -/
theorem popList_spec : ∀ (n : Nat) (st : KbdState), KInv st →
    st.buf_sz.toNat = n → popList n st = toQueue st := by
  intro n
  induction n with
  | zero =>
    intro st hinv h0
    unfold popList toQueue
    rw [h0]
    rfl
  | succ n ih =>
    intro st hinv hn
    have hpos : 0 < st.buf_sz := by
      obtain ⟨h1, _⟩ := hinv
      omega
    show (readbuf st).2 :: popList n (readbuf st).1 = toQueue st
    rw [toQueue_readbuf st hinv hpos]
    congr 1
    apply ih (readbuf st).1 (readbuf_inv st hinv)
    rw [readbuf_pos st hpos]
    show (st.buf_sz - 1).toNat = n
    omega

/-- C5: the capacity-512 circular buffer (int.c lines 297-304 and
315-324): a push onto a full buffer drops the byte and leaves the whole
state (count included) unchanged; push and pop preserve the invariant
`0 ≤ count ≤ 512` with head and tail wrapping within `[0, 512)`; a push
onto a non-full buffer enqueues at the end of the abstract FIFO contents
and a pop dequeues from its front; pushing any byte sequence appends
exactly its accepted prefix, and popping `count` bytes then returns the
buffered bytes in FIFO order. -/
theorem c5_ring_buffer (st : KbdState) (ch : Int) (l : List Int)
    (hinv : KInv st) (hch : 0 ≤ ch ∧ ch < 256)
    (hl : ∀ b ∈ l, 0 ≤ b ∧ b < 256) :
    (st.buf_sz = 512 → writebuf st ch = st) ∧
    KInv (writebuf st ch) ∧
    KInv (readbuf st).1 ∧
    (st.buf_sz < 512 → toQueue (writebuf st ch) = toQueue st ++ [ch]) ∧
    (0 < st.buf_sz → toQueue st = (readbuf st).2 :: toQueue (readbuf st).1) ∧
    toQueue (pushList st l) = toQueue st ++ l.take (512 - st.buf_sz.toNat) ∧
    popList (pushList st l).buf_sz.toNat (pushList st l) = toQueue (pushList st l) := by
  obtain ⟨hp1, hp2⟩ := pushList_spec l st hinv hl
  refine ⟨?_, writebuf_inv st ch hinv hch, readbuf_inv st hinv,
    fun h => toQueue_writebuf st ch hinv h,
    fun h => toQueue_readbuf st hinv h, hp2,
    popList_spec _ _ hp1 rfl⟩
  intro h512
  exact writebuf_full st ch (by omega)

/-- Witness for C5 at the one-element buffer `kState1`, pushing byte 7 and
the sequence [1, 2]. -/
theorem c5_ring_buffer_w :
    KInv (writebuf kState1 7) ∧
    toQueue (writebuf kState1 7) = toQueue kState1 ++ [7] ∧
    toQueue kState1 = (readbuf kState1).2 :: toQueue (readbuf kState1).1 ∧
    toQueue (pushList kState1 [1, 2]) =
      toQueue kState1 ++ [1, 2].take (512 - kState1.buf_sz.toNat) := by
  have hinv : KInv kState1 := by
    refine ⟨by norm_num [kState1], by norm_num [kState1], by norm_num [kState1],
      by norm_num [kState1], by norm_num [kState1], by norm_num [kState1],
      by norm_num [kState1], ?_⟩
    intro a ha hb
    simp only [kState1]
    split_ifs <;> norm_num
  have h := c5_ring_buffer kState1 7 [1, 2] hinv (by norm_num)
    (by intro b hb; fin_cases hb <;> norm_num)
  exact ⟨h.2.1, h.2.2.2.1 (by norm_num [kState1]),
    h.2.2.2.2.1 (by norm_num [kState1]), h.2.2.2.2.2.1⟩
